import Mathlib

/-!
Shallow embedding of `src/efile_parser.py` (class `EFileParser`).

Python strings are modelled as `List Char` (`PyStr`); a file content that may
fail to open or decode is an `Option` value (`none` = the `open` call or the
decoding raised, so control enters the corresponding `except` branch).
Python dicts are association lists with in-place overwrite (`dictInsert`) and
first-match lookup (`dictGet?`); the raising subscript `d[k]` is `dictGetE`
returning `Except`.  The pandas calls made by `_parse_section` are embedded
by `mkDataFrame` (the `pd.DataFrame(data, columns=...)` constructor over a
list of string rows: the width of the constructed block is the maximum row
width, shorter rows are padded with `None` by `lib.to_object_array`, and a
block width different from `len(columns)` raises in
`_validate_or_indexify_columns`) and by `toNumericColumn` / `toNumericCell`
(`pd.to_numeric` over one column: every cell must convert or the call raises
and the bare `except` keeps the column; a `None` cell converts to `NaN`; the
result has integer dtype exactly when every cell converted through the
integer path).  `pd.to_numeric` applied to `df[name]` where `name` is a
duplicated column label receives a DataFrame instead of a Series and raises,
so such columns are never converted; `typeColumn` carries that guard.
-/

namespace EFile

abbrev PyStr := List Char

def pstr (s : String) : PyStr := s.toList

/-- Whitespace stripped by Python `str.strip()` (ASCII part). -/
def pyIsSpace (c : Char) : Bool :=
  c = ' ' || c = '\t' || c = '\n' || c = '\r' || c = '\x0b' || c = '\x0c'

/-- Python `str.strip()`. -/
def pyStrip (l : PyStr) : PyStr :=
  ((l.dropWhile pyIsSpace).reverse.dropWhile pyIsSpace).reverse

/-- Python `str.startswith(p)`. -/
def pyStartsWith : PyStr → PyStr → Bool
  | _, [] => true
  | [], _ :: _ => false
  | c :: cs, d :: ds => c == d && pyStartsWith cs ds

/-- Python slice `s[1:-1]` (used on section markers of `_find_sections`). -/
def pySlice1 (l : PyStr) : PyStr := (l.drop 1).dropLast

/-- Python slice `s[2:-1]`. -/
def pySlice2 (l : PyStr) : PyStr := (l.drop 2).dropLast

/-- Worker of Python `str.split(sep)` for a non-empty separator; `cur` holds
the reversed current field and the fuel starts at the string length (each
step consumes at least one character, so the fuel never runs out when the
call comes from `splitOnList`). -/
def splitOnGo (sep : PyStr) : Nat → PyStr → PyStr → List PyStr
  | _, cur, [] => [cur.reverse]
  | 0, cur, rest => [cur.reverse ++ rest]
  | fuel + 1, cur, c :: rest =>
    if !sep.isEmpty && pyStartsWith (c :: rest) sep then
      cur.reverse :: splitOnGo sep fuel [] (List.drop sep.length (c :: rest))
    else
      splitOnGo sep fuel (c :: cur) rest

/-- Python `str.split(sep)` for a non-empty separator. -/
def splitOnList (sep l : PyStr) : List PyStr := splitOnGo sep l.length [] l

/-- Scan of `_load_format_config` lines 50-59: the index of the first
unescaped `#`; a backslash that still has a following character consumes
both (`i += 2`), an unescaped `#` stops the scan. -/
def commentPos : PyStr → Option Nat
  | [] => none
  | c :: rest =>
    if c = '\\' then
      match rest with
      | [] => none
      | _ :: rest' => (commentPos rest').map (· + 2)
    else if c = '#' then some 0
    else (commentPos rest).map (· + 1)

/-- Lines 62-63: truncate the line at the first unescaped `#` and strip. -/
def stripInlineComment (line : PyStr) : PyStr :=
  match commentPos line with
  | some p => pyStrip (line.take p)
  | none => line

/-- Lines 80-90: translation of the character following a backslash in the
second escape pass over a config value. -/
def unescapeChar (c : Char) : Char :=
  if c = '#' then '#'
  else if c = 'n' then '\n'
  else if c = 't' then '\t'
  else if c = '\\' then '\\'
  else c

/-- Lines 76-95: the second, independent escape pass over a config value;
a trailing lone backslash is kept as such (the `i + 1 < len(value)` test). -/
def unescape : PyStr → PyStr
  | [] => []
  | c :: rest =>
    if c = '\\' then
      match rest with
      | [] => ['\\']
      | d :: rest' => unescapeChar d :: unescape rest'
    else c :: unescape rest

/-- Lines 71-95: decode a config value (single-backslash sentinel becomes a
space, otherwise the escape pass runs only when a backslash occurs). -/
def decodeValue (v : PyStr) : PyStr :=
  if v = ['\\'] then [' ']
  else if v.contains '\\' then unescape v
  else v

/-- Python dict assignment `d[k] = v`: overwrite the value in place when the
key exists, otherwise append the pair. -/
def dictInsert {α : Type} : List (PyStr × α) → PyStr → α → List (PyStr × α)
  | [], key, v => [(key, v)]
  | (k, w) :: rest, key, v =>
    if k = key then (key, v) :: rest else (k, w) :: dictInsert rest key v

/-- Python dict lookup as an option. -/
def dictGet? {α : Type} : List (PyStr × α) → PyStr → Option α
  | [], _ => none
  | (k, v) :: rest, key => if k = key then some v else dictGet? rest key

abbrev Config := List (PyStr × PyStr)

/-- Exceptions the embedded code can raise. -/
inductive PyErr where
  | keyError (key : PyStr)
  | valueError
deriving DecidableEq

/-- Python raising subscript `d[k]` (`KeyError` when the key is absent). -/
def dictGetE (d : Config) (k : PyStr) : Except PyErr PyStr :=
  match dictGet? d k with
  | some v => .ok v
  | none => .error (.keyError k)

/-- Lines 36-97 of `_load_format_config`: processing of one physical line of
the config file (strip, skip blank and full-line comments, truncate at the
first unescaped `#`, split at the first `=`, decode the value, store). -/
def loadConfigLine (cfg : Config) (rawLine : PyStr) : Config :=
  let line := pyStrip rawLine
  if line = [] then cfg
  else if pyStartsWith line ['#'] then cfg
  else
    let line' := stripInlineComment line
    if line'.contains '=' then
      let key := pyStrip (line'.takeWhile (fun c => c != '='))
      let value := pyStrip ((line'.dropWhile (fun c => c != '=')).drop 1)
      dictInsert cfg key (decodeValue value)
    else cfg

/-- `EFileParser._load_format_config`: `none` models the config file failing
to open or decode, in which case the `except` branch (lines 99-101) prints a
message and returns the empty dict. -/
def loadFormatConfig : Option (List PyStr) → Config
  | none => []
  | some lines => lines.foldl loadConfigLine []

/-- A section found by `_find_sections`: name, line of `<name>`, line of
`</name>` (Python keys `name`, `start`, `end`). -/
structure ESection where
  name : PyStr
  start : Nat
  stop : Nat
deriving DecidableEq

/-- Scanner state: the `current_section` variable and the emitted list. -/
abbrev ScanSt := Option (PyStr × Nat) × List ESection

/-- `EFileParser._find_sections`, body of the loop (lines 117-133), acting
on the already stripped line. -/
def sectionStepT (st : ScanSt) (i : Nat) (line : PyStr) : ScanSt :=
  if line = [] then st
  else if pyStartsWith line ['<'] && !pyStartsWith line ['<', '/'] then
    (some (pySlice1 line, i), st.2)
  else
    match st.1 with
    | some (n, s) =>
      if pyStartsWith line ['<', '/'] then
        if pySlice2 line = n then (none, st.2 ++ [⟨n, s, i⟩]) else st
      else st
    | none => st

/-- One loop iteration of `_find_sections` on the raw line. -/
def sectionStep (st : ScanSt) (i : Nat) (rawLine : PyStr) : ScanSt :=
  sectionStepT st i (pyStrip rawLine)

/-- The `enumerate` loop of `_find_sections`. -/
def scanSecs : Nat → ScanSt → List PyStr → ScanSt
  | _, st, [] => st
  | i, st, l :: rest => scanSecs (i + 1) (sectionStep st i l) rest

/-- `_find_sections` on a list of lines; a dangling open section is dropped
because only the second component is returned. -/
def findSectionsLines (lines : List PyStr) : List ESection :=
  (scanSecs 0 (none, []) lines).2

/-- `EFileParser._find_sections(content)` (`content.split('\n')`). -/
def findSections (content : PyStr) : List ESection :=
  findSectionsLines (splitOnList ['\n'] content)

def ansKey : PyStr := pstr "AttributeNameStarter"
def abKey : PyStr := pstr "AttributeBreaker"
def dlsKey : PyStr := pstr "DataLineStarter"
def dbKey : PyStr := pstr "DataBreaker"

/-- The local state of `_parse_section`'s loop: `columns` and `data`. -/
structure RawSec where
  columns : Option (List PyStr)
  data : List (List PyStr)
deriving DecidableEq

/-- Python `str.split(sep)`: raises `ValueError` on an empty separator. -/
def pySplit (s sep : PyStr) : Except PyErr (List PyStr) :=
  if sep = [] then .error .valueError else .ok (splitOnList sep s)

/-- `EFileParser._parse_section`, body of the line loop (lines 152-165), on
the already stripped line.  The config subscripts are evaluated in the order
Python evaluates them and may raise `KeyError`.  Note that both branches
strip `line[1:]`: exactly one character, whatever the configured token. -/
def parseSectionLineT (cfg : Config) (st : RawSec) (line : PyStr) :
    Except PyErr RawSec :=
  if line.isEmpty || pyStartsWith line ['/', '/'] then .ok st
  else
    match dictGetE cfg ansKey with
    | .error e => .error e
    | .ok ans =>
      if pyStartsWith line ans then
        match dictGetE cfg abKey with
        | .error e => .error e
        | .ok ab =>
          match pySplit (pyStrip (line.drop 1)) ab with
          | .error e => .error e
          | .ok cols => .ok ⟨some (cols.map pyStrip), st.data⟩
      else
        match dictGetE cfg dlsKey with
        | .error e => .error e
        | .ok dls =>
          if pyStartsWith line dls then
            match dictGetE cfg dbKey with
            | .error e => .error e
            | .ok db =>
              match pySplit (pyStrip (line.drop 1)) db with
              | .error e => .error e
              | .ok vals => .ok ⟨st.columns, st.data ++ [vals.map pyStrip]⟩
          else .ok st

/-- One loop iteration of `_parse_section` on the raw line. -/
def parseSectionLine (cfg : Config) (st : RawSec) (rawLine : PyStr) :
    Except PyErr RawSec :=
  parseSectionLineT cfg st (pyStrip rawLine)

/-- Python slice `lines[a:b]`. -/
def pySliceList {α : Type} (l : List α) (a b : Nat) : List α :=
  (l.drop a).take (b - a)

/-- The loop of `_parse_section` over the exception monad. -/
def parseSectionGo (cfg : Config) : RawSec → List PyStr → Except PyErr RawSec
  | st, [] => .ok st
  | st, l :: rest =>
    match parseSectionLine cfg st l with
    | .error e => .error e
    | .ok st' => parseSectionGo cfg st' rest

/-- The header/data collection of `_parse_section` over
`lines[start + 1:end]`. -/
def parseSectionRaw (cfg : Config) (lines : List PyStr) (start stop : Nat) :
    Except PyErr RawSec :=
  parseSectionGo cfg ⟨none, []⟩ (pySliceList lines (start + 1) stop)

/-- The width of the 2-d object block pandas builds from a list of rows:
the maximum row length. -/
def pyMaxWidth (rows : List (List PyStr)) : Nat :=
  rows.foldl (fun m r => max m r.length) 0

/-- A cell of the constructed DataFrame: a string or the `None` padding. -/
abbrev CellV := Option PyStr

/-- Padding of one row to the block width with `None`. -/
def padRow (k : Nat) (r : List PyStr) : List CellV :=
  r.map some ++ List.replicate (k - r.length) none

/-- `pd.DataFrame(data, columns=...)` over a list of string rows: raises
when the block width (the maximum row length) differs from `len(columns)`,
otherwise pads shorter rows with `None`. -/
def mkDataFrame (cols : List PyStr) (rows : List (List PyStr)) :
    Except PyErr (List (List CellV)) :=
  if pyMaxWidth rows = cols.length then .ok (rows.map (padRow cols.length))
  else .error .valueError

/-- A value produced by `pd.to_numeric`: integer, float (as a rational), or
`NaN` (from a `None` cell). -/
inductive NumV where
  | int (n : Int)
  | rat (q : Rat)
  | nan
deriving DecidableEq

/-- Optional leading sign of a numeric literal. -/
def splitSign (cs : PyStr) : Int × PyStr :=
  match cs with
  | '+' :: rest => (1, rest)
  | '-' :: rest => (-1, rest)
  | _ => (1, cs)

def isDigits (cs : PyStr) : Bool := !cs.isEmpty && cs.all (·.isDigit)

def digitsToNat (cs : PyStr) : Nat :=
  cs.foldl (fun a c => a * 10 + (c.toNat - 48)) 0

/-- Integer conversion path of `pd.to_numeric` on a stripped cell. -/
def parseIntStr (s : PyStr) : Option Int :=
  let p := splitSign s
  if isDigits p.2 then some (p.1 * (digitsToNat p.2 : Int)) else none

/-- Unsigned mantissa `digits [. digits]` with at least one digit. -/
def parseMantissa (cs : PyStr) : Option Rat :=
  let intPart := cs.takeWhile (·.isDigit)
  let rest := cs.dropWhile (·.isDigit)
  match rest with
  | [] => if intPart.isEmpty then none else some ((digitsToNat intPart : Nat) : Rat)
  | '.' :: frac =>
    if frac.all (·.isDigit) && !(intPart.isEmpty && frac.isEmpty) then
      some ((digitsToNat intPart : Rat) + (digitsToNat frac : Rat) / ((10 : Rat) ^ frac.length))
    else none
  | _ => none

/-- Floating-point conversion path of `pd.to_numeric` (decimal literals with
optional sign, fraction and exponent). -/
def parseFloatStr (s : PyStr) : Option Rat :=
  let p := splitSign s
  let mant := p.2.takeWhile (fun c => c != 'e' && c != 'E')
  let rest := p.2.dropWhile (fun c => c != 'e' && c != 'E')
  match rest with
  | [] => (parseMantissa mant).map (fun m => (p.1 : Rat) * m)
  | _ :: expPart =>
    let q := splitSign expPart
    if isDigits q.2 then
      (parseMantissa mant).map
        (fun m => (p.1 : Rat) * (m * (10 : Rat) ^ (q.1 * (digitsToNat q.2 : Int))))
    else none

/-- One cell through `pd.to_numeric`: a `None` cell becomes `NaN`, a string
must convert through the integer or the float path. -/
def toNumericCell (c : CellV) : Option NumV :=
  match c with
  | none => some .nan
  | some s =>
    match parseIntStr s with
    | some n => some (.int n)
    | none => (parseFloatStr s).map .rat

/-- All-or-nothing conversion of a list (`none` as soon as one element fails
to convert). -/
def mapOpt {α β : Type} (f : α → Option β) : List α → Option (List β)
  | [] => some []
  | a :: rest =>
    match f a, mapOpt f rest with
    | some b, some bs => some (b :: bs)
    | _, _ => none

/-- A typed column of the resulting DataFrame. -/
inductive Col where
  | ints (vs : List Int)
  | floats (vs : List NumV)
  | strs (vs : List CellV)
deriving DecidableEq

def isIntV : NumV → Bool
  | .int _ => true
  | _ => false

def getIntV : NumV → Option Int
  | .int n => some n
  | _ => none

/-- `pd.to_numeric` over the cells of one column: `none` when some cell does
not convert (the `except` branch then keeps the column as strings); integer
dtype exactly when every converted value came through the integer path. -/
def toNumericColumn (cj : List CellV) : Option Col :=
  match mapOpt toNumericCell cj with
  | none => none
  | some vs =>
    if vs.all isIntV then some (.ints (vs.filterMap getIntV))
    else some (.floats vs)

/-- The cells of column `j` of the constructed block. -/
def colCells (cells : List (List CellV)) (j : Nat) : List CellV :=
  cells.map (fun r => r.getD j none)

/-- Number of occurrences of a label in the column list. -/
def countOcc (x : PyStr) : List PyStr → Nat
  | [] => 0
  | y :: rest => (if y = x then 1 else 0) + countOcc x rest

/-- The typed DataFrame `_parse_section` returns. -/
structure TFrame where
  columns : List PyStr
  cols : List Col
deriving DecidableEq

/-- One iteration of the typing loop (lines 170-174): `df[name]` with a
duplicated column label is a DataFrame, so `pd.to_numeric` raises and the
bare `except` keeps those columns as strings; with a unique label the column
is converted exactly when every cell converts. -/
def typeColumn (columns : List PyStr) (cells : List (List CellV)) (j : Nat) : Col :=
  let cj := colCells cells j
  if 1 < countOcc (columns.getD j []) columns then .strs cj
  else
    match toNumericColumn cj with
    | some c => c
    | none => .strs cj

/-- The typing loop over all columns. -/
def typeFrame (columns : List PyStr) (cells : List (List CellV)) : TFrame :=
  ⟨columns, (List.range columns.length).map (typeColumn columns cells)⟩

/-- `EFileParser._parse_section` (lines 137-176): `.ok none` models the
empty DataFrame returned when no header or no data row was captured (the
Python truthiness test `if columns and data`). -/
def parseSection (cfg : Config) (lines : List PyStr) (start stop : Nat) :
    Except PyErr (Option TFrame) :=
  match parseSectionRaw cfg lines start stop with
  | .error e => .error e
  | .ok raw =>
    match raw.columns with
    | some cols =>
      if cols.isEmpty || raw.data.isEmpty then .ok none
      else
        match mkDataFrame cols raw.data with
        | .error e => .error e
        | .ok cells => .ok (some (typeFrame cols cells))
    | none => .ok none

/-- The section loop of `read_file` (lines 204-211): insert non-empty
DataFrames under the section name, overwriting; propagate exceptions. -/
def readSections (cfg : Config) (lines : List PyStr) :
    List ESection → List (PyStr × TFrame) → Except PyErr (List (PyStr × TFrame))
  | [], result => .ok result
  | s :: rest, result =>
    match parseSection cfg lines s.start s.stop with
    | .error e => .error e
    | .ok none => readSections cfg lines rest result
    | .ok (some t) => readSections cfg lines rest (dictInsert result s.name t)

/-- The body of `read_file`'s `try` block on decoded content. -/
def readFileAux (cfg : Config) (content : PyStr) :
    Except PyErr (List (PyStr × TFrame)) :=
  readSections cfg (splitOnList ['\n'] content) (findSections content) []

/-- `EFileParser.read_file`: `none` models the data file failing to open or
decode; every exception reaches the catch-all (lines 215-217), which prints
a message and returns the empty dict. -/
def readFile (cfg : Config) (fileContent : Option PyStr) :
    List (PyStr × TFrame) :=
  match fileContent with
  | none => []
  | some content =>
    match readFileAux cfg content with
    | .ok m => m
    | .error _ => []

/-- `read_file` with the only piece of instance state, `self.format_config`,
threaded explicitly: the method body contains no assignment to the field, so
the post-call state equals the pre-call state. -/
def readFileS (cfg : Config) (fileContent : Option PyStr) :
    List (PyStr × TFrame) × Config :=
  (readFile cfg fileContent, cfg)

/-- The conventional format configuration (`@`, space, `#`, space). -/
def cfgStd : Config :=
  [(ansKey, pstr "@"), (abKey, pstr " "), (dlsKey, pstr "#"), (dbKey, pstr " ")]

/-- A format configuration whose attribute starter is two characters long. -/
def cfgAtAt : Config :=
  [(ansKey, pstr "@@"), (abKey, pstr " "), (dlsKey, pstr "#"), (dbKey, pstr " ")]

/-- A unit of the comment-detection scan: an escape pair, or one character
that is neither a backslash nor a hash. -/
def EscUnit (u : PyStr) : Prop :=
  (∃ c, u = ['\\', c]) ∨ ∃ c, u = [c] ∧ c ≠ '\\' ∧ c ≠ '#'

/-- Concatenation of scan units. -/
def joinCh : List PyStr → PyStr
  | [] => []
  | u :: us => u ++ joinCh us

/-- Step of the declarative last-write-wins fold over sections. -/
def lastTableStep (cfg : Config) (lines : List PyStr) (name : PyStr)
    (a : Option TFrame) (s : ESection) : Option TFrame :=
  if s.name = name then
    match parseSection cfg lines s.start s.stop with
    | .ok (some t) => some t
    | _ => a
  else a

/-- The table of the last section named `name` that yields one. -/
def lastTable (cfg : Config) (lines : List PyStr) (name : PyStr)
    (a : Option TFrame) (secs : List ESection) : Option TFrame :=
  secs.foldl (lastTableStep cfg lines name) a

theorem commentPos_pair (c : Char) (l : PyStr) :
    commentPos ('\\' :: c :: l) = (commentPos l).map (· + 2) := rfl

theorem commentPos_hash (l : PyStr) : commentPos ('#' :: l) = some 0 := by
  rw [commentPos.eq_def]
  simp

theorem commentPos_other (c : Char) (l : PyStr) (h1 : c ≠ '\\') (h2 : c ≠ '#') :
    commentPos (c :: l) = (commentPos l).map (· + 1) := by
  rw [commentPos.eq_def]
  simp only []
  rw [if_neg h1, if_neg h2]

/-- Behaviour of the comment scan over any sequence of scan units. -/
theorem commentPos_units (us : List PyStr) (h : ∀ u ∈ us, EscUnit u) :
    (∀ rest, commentPos (joinCh us ++ '#' :: rest) = some (joinCh us).length)
    ∧ commentPos (joinCh us) = none := by
  induction us with
  | nil =>
    exact ⟨fun rest => commentPos_hash rest, rfl⟩
  | cons u us ih =>
    have hu : EscUnit u := h u (List.mem_cons_self u us)
    obtain ⟨ih1, ih2⟩ := ih (fun v hv => h v (List.mem_cons_of_mem u hv))
    rcases hu with ⟨c, rfl⟩ | ⟨c, rfl, hc1, hc2⟩
    · constructor
      · intro rest
        have hstep :
            commentPos (joinCh (['\\', c] :: us) ++ '#' :: rest)
              = (commentPos (joinCh us ++ '#' :: rest)).map (· + 2) := by
          simp only [joinCh, List.cons_append, List.nil_append]
          exact commentPos_pair c _
        rw [hstep, ih1 rest]
        simp only [Option.map_some', joinCh, List.length_append, List.length_cons,
          List.length_nil, Option.some.injEq]
        omega
      · have hstep :
            commentPos (joinCh (['\\', c] :: us))
              = (commentPos (joinCh us)).map (· + 2) := by
          simp only [joinCh, List.cons_append, List.nil_append]
          exact commentPos_pair c _
        rw [hstep, ih2]
        rfl
    · constructor
      · intro rest
        have hstep :
            commentPos (joinCh ([c] :: us) ++ '#' :: rest)
              = (commentPos (joinCh us ++ '#' :: rest)).map (· + 1) := by
          simp only [joinCh, List.cons_append, List.nil_append]
          exact commentPos_other c _ hc1 hc2
        rw [hstep, ih1 rest]
        simp only [Option.map_some', joinCh, List.length_append, List.length_cons,
          List.length_nil, Option.some.injEq]
        omega
      · have hstep :
            commentPos (joinCh ([c] :: us))
              = (commentPos (joinCh us)).map (· + 1) := by
          simp only [joinCh, List.cons_append, List.nil_append]
          exact commentPos_other c _ hc1 hc2
        rw [hstep, ih2]
        rfl

theorem unescapeChar_eq_self (c : Char) (h1 : c ≠ 'n') (h2 : c ≠ 't') :
    unescapeChar c = c := by
  unfold unescapeChar
  by_cases ha : c = '#'
  · rw [if_pos ha, ha]
  · rw [if_neg ha, if_neg h1, if_neg h2]
    by_cases hd : c = '\\'
    · rw [if_pos hd, hd]
    · rw [if_neg hd]

theorem unescape_pair (c : Char) (rest : PyStr) :
    unescape ('\\' :: c :: rest) = unescapeChar c :: unescape rest := rfl

/-- C1 counterexample: at each of the three fatal conditions the code
produces an empty mapping rather than a typed failure — an unreadable or
undecodable config file loads to the empty config, an unreadable or
undecodable data file parses to the empty result, and a missing required
format key (here: the empty config on a file containing a data-like line)
makes `read_file` return the empty result. -/
theorem c1_counterexample :
    loadFormatConfig none = []
    ∧ readFile cfgStd none = []
    ∧ readFile [] (some (pstr "<T>\n#1 2\n</T>")) = [] := by
  refine ⟨rfl, rfl, rfl⟩

/-- C1 (amended): on each fatal condition the code prints a diagnostic and
returns an empty mapping instead of an explicit typed failure: a failing
config open/decode yields the empty config; a failing data open/decode
yields the empty result for every config; a missing required format key
raises `KeyError` inside the section loop, which the catch-all of
`read_file` swallows into the empty result. -/
theorem c1_error_swallowing :
    (∀ cfg : Config, readFile cfg none = [])
    ∧ loadFormatConfig none = []
    ∧ dictGet? ([] : Config) ansKey = none
    ∧ readFileAux [] (pstr "<T>\n#1 2\n</T>") = .error (PyErr.keyError ansKey)
    ∧ readFile [] (some (pstr "<T>\n#1 2\n</T>")) = [] := by
  refine ⟨fun cfg => rfl, rfl, rfl, rfl, rfl⟩

/-- C2: comment stripping of the config loader is escape-aware.  For any
line prefix made of scan units (an escape pair `\c`, or a single character
other than `\` and `#`), the scan reports the first `#` after the prefix,
and reports no comment when the whole line is made of such units; the
documented example line loads to key `key` and value
`value # not a comment`. -/
theorem c2_comment_stripping :
    (∀ (us : List PyStr) (rest : PyStr), (∀ u ∈ us, EscUnit u) →
      commentPos (joinCh us ++ '#' :: rest) = some (joinCh us).length)
    ∧ (∀ us : List PyStr, (∀ u ∈ us, EscUnit u) →
      commentPos (joinCh us) = none)
    ∧ loadFormatConfig (some [pstr "key = value \\# not a comment # actual comment"])
        = [(pstr "key", pstr "value # not a comment")] := by
  refine ⟨fun us rest h => (commentPos_units us h).1 rest,
    fun us h => (commentPos_units us h).2, rfl⟩

/-- C2 witness: the scan on the concrete line `a\##z`. -/
theorem c2_witness :
    (∀ u ∈ [['a'], ['\\', '#']], EscUnit u)
    ∧ commentPos (joinCh [['a'], ['\\', '#']] ++ '#' :: ['z'])
        = some (joinCh [['a'], ['\\', '#']]).length := by
  have h : ∀ u ∈ [['a'], ['\\', '#']], EscUnit u := by
    intro u hu
    cases hu with
    | head => exact Or.inr ⟨'a', rfl, by decide, by decide⟩
    | tail _ hu =>
      cases hu with
      | head => exact Or.inl ⟨'#', rfl⟩
      | tail _ hu => cases hu
  exact ⟨h, c2_comment_stripping.1 [['a'], ['\\', '#']] ['z'] h⟩

/-- C3: decoding of a parsed config value — the single-backslash sentinel
becomes one space; a value without backslash is stored unchanged; the
second escape pass rewrites each pair as documented and otherwise drops the
backslash. -/
theorem c3_value_decoding :
    decodeValue ['\\'] = [' ']
    ∧ (∀ v : PyStr, v.contains '\\' = false → decodeValue v = v)
    ∧ (∀ rest, unescape ('\\' :: '#' :: rest) = '#' :: unescape rest)
    ∧ (∀ rest, unescape ('\\' :: 'n' :: rest) = '\n' :: unescape rest)
    ∧ (∀ rest, unescape ('\\' :: 't' :: rest) = '\t' :: unescape rest)
    ∧ (∀ rest, unescape ('\\' :: '\\' :: rest) = '\\' :: unescape rest)
    ∧ (∀ (c : Char) rest, c ≠ 'n' → c ≠ 't' →
        unescape ('\\' :: c :: rest) = c :: unescape rest)
    ∧ (∀ v : PyStr, v ≠ ['\\'] → v.contains '\\' = true →
        decodeValue v = unescape v) := by
  refine ⟨rfl, ?_, fun rest => rfl, fun rest => rfl, fun rest => rfl, fun rest => rfl,
    ?_, ?_⟩
  · intro v h
    have hne : v ≠ ['\\'] := by
      intro e
      rw [e] at h
      exact absurd h (by decide)
    unfold decodeValue
    rw [if_neg hne, h]
    rfl
  · intro c rest h1 h2
    rw [unescape_pair, unescapeChar_eq_self c h1 h2]
  · intro v hne h
    unfold decodeValue
    rw [if_neg hne, h]
    rfl

/-- C3 witness: the documented round-trip examples. -/
theorem c3_witness :
    ((pstr "ab").contains '\\' = false ∧ decodeValue (pstr "ab") = pstr "ab")
    ∧ (('x' : Char) ≠ 'n' ∧ ('x' : Char) ≠ 't'
        ∧ unescape ['\\', 'x'] = ['x'])
    ∧ (pstr "a\\#b" ≠ ['\\'] ∧ (pstr "a\\#b").contains '\\' = true
        ∧ decodeValue (pstr "a\\#b") = unescape (pstr "a\\#b")) := by
  refine ⟨⟨by decide, c3_value_decoding.2.1 (pstr "ab") (by decide)⟩,
    ⟨by decide, by decide,
      c3_value_decoding.2.2.2.2.2.2.1 'x' [] (by decide) (by decide)⟩,
    ⟨by decide, by decide,
      c3_value_decoding.2.2.2.2.2.2.2 (pstr "a\\#b") (by decide) (by decide)⟩⟩

theorem sectionStepT_open (st : ScanSt) (i : Nat) (line : PyStr)
    (h1 : pyStartsWith line ['<'] = true)
    (h2 : pyStartsWith line ['<', '/'] = false) :
    sectionStepT st i line = (some (pySlice1 line, i), st.2) := by
  have hne : line ≠ [] := by
    intro e
    rw [e] at h1
    exact absurd h1 (by decide)
  unfold sectionStepT
  rw [if_neg hne, h1, h2]
  rfl

theorem sectionStepT_closeIgnored (st : ScanSt) (i : Nat) (line : PyStr)
    (h1 : pyStartsWith line ['<', '/'] = true)
    (h2 : st.1 = none ∨ ∃ n s, st.1 = some (n, s) ∧ pySlice2 line ≠ n) :
    sectionStepT st i line = st := by
  have hne : line ≠ [] := by
    intro e
    rw [e] at h1
    exact absurd h1 (by decide)
  unfold sectionStepT
  rw [if_neg hne, h1]
  rcases h2 with h2 | ⟨n, s, hcur, hne2⟩
  · rw [h2]
    simp
  · rw [hcur]
    simp [hne2]

theorem scanSecs_append (l1 l2 : List PyStr) :
    ∀ (i : Nat) (st : ScanSt),
      scanSecs i st (l1 ++ l2) = scanSecs (i + l1.length) (scanSecs i st l1) l2 := by
  induction l1 with
  | nil =>
    intro i st
    simp [scanSecs]
  | cons a l ih =>
    intro i st
    simp only [List.cons_append, scanSecs, List.append_eq]
    rw [ih]
    congr 1
    simp only [List.length_cons]
    omega

theorem findSectionsLines_trailing_open (lines : List PyStr) (t : PyStr)
    (h1 : pyStartsWith (pyStrip t) ['<'] = true)
    (h2 : pyStartsWith (pyStrip t) ['<', '/'] = false) :
    findSectionsLines (lines ++ [t]) = findSectionsLines lines := by
  unfold findSectionsLines
  rw [scanSecs_append]
  simp only [scanSecs]
  unfold sectionStep
  rw [sectionStepT_open _ _ _ h1 h2]

/-- C4: the two-state section scanner.  The six documented lines yield
exactly sections `A` (0,2) then `B` (3,5); a close marker with no matching
open section (state `none`, or a different open name) leaves state and
output unchanged; an open marker always replaces the current open section
without emitting anything; a trailing open marker (a section still pending
at end of input) contributes nothing to the output. -/
theorem c4_section_scanning :
    findSectionsLines [pstr "<A>", pstr "x", pstr "</A>", pstr "<B>", pstr "y", pstr "</B>"]
      = [⟨pstr "A", 0, 2⟩, ⟨pstr "B", 3, 5⟩]
    ∧ (∀ (st : ScanSt) (i : Nat) (rawLine : PyStr),
        pyStartsWith (pyStrip rawLine) ['<', '/'] = true →
        (st.1 = none ∨ ∃ n s, st.1 = some (n, s) ∧ pySlice2 (pyStrip rawLine) ≠ n) →
        sectionStep st i rawLine = st)
    ∧ (∀ (st : ScanSt) (i : Nat) (rawLine : PyStr),
        pyStartsWith (pyStrip rawLine) ['<'] = true →
        pyStartsWith (pyStrip rawLine) ['<', '/'] = false →
        sectionStep st i rawLine = (some (pySlice1 (pyStrip rawLine), i), st.2))
    ∧ (∀ (lines : List PyStr) (t : PyStr),
        pyStartsWith (pyStrip t) ['<'] = true →
        pyStartsWith (pyStrip t) ['<', '/'] = false →
        findSectionsLines (lines ++ [t]) = findSectionsLines lines) := by
  refine ⟨by decide, ?_, ?_, fun lines t h1 h2 =>
    findSectionsLines_trailing_open lines t h1 h2⟩
  · intro st i rawLine h1 h2
    exact sectionStepT_closeIgnored st i _ h1 h2
  · intro st i rawLine h1 h2
    exact sectionStepT_open st i _ h1 h2

/-- C4 witness: an unmatched close marker is ignored, an open marker
replaces the open section, and a trailing open marker emits nothing. -/
theorem c4_witness :
    (pyStartsWith (pyStrip (pstr "</C>")) ['<', '/'] = true
      ∧ sectionStep (some (pstr "A", 0), ([] : List ESection)) 7 (pstr "</C>")
          = (some (pstr "A", 0), []))
    ∧ (pyStartsWith (pyStrip (pstr "<B>")) ['<'] = true
      ∧ pyStartsWith (pyStrip (pstr "<B>")) ['<', '/'] = false
      ∧ sectionStep (some (pstr "A", 0), ([] : List ESection)) 3 (pstr "<B>")
          = (some (pstr "B", 3), []))
    ∧ findSectionsLines [pstr "<A>"] = findSectionsLines [] := by
  refine ⟨⟨by decide, c4_section_scanning.2.1 _ 7 _ (by decide)
      (Or.inr ⟨pstr "A", 0, rfl, by decide⟩)⟩,
    ⟨by decide, by decide,
      c4_section_scanning.2.2.1 (some (pstr "A", 0), ([] : List ESection)) 3
        (pstr "<B>") (by decide) (by decide)⟩,
    c4_section_scanning.2.2.2 [] (pstr "<A>") (by decide) (by decide)⟩

/-- C9: parsing is deterministic and stateless across calls — the threaded
instance state (`self.format_config`) after a call equals the state before
it, and a second parse of the same content starting from the post-call
state returns a structurally equal result. -/
theorem c9_stateless (cfg : Config) (fc : Option PyStr) :
    (readFileS cfg fc).2 = cfg
    ∧ (readFileS (readFileS cfg fc).2 fc).1 = (readFileS cfg fc).1 :=
  ⟨rfl, rfl⟩

theorem parseSectionLineT_header (cfg : Config) (st : RawSec) (line ans ab : PyStr)
    (hans : dictGetE cfg ansKey = .ok ans) (hab : dictGetE cfg abKey = .ok ab)
    (habne : ab ≠ []) (hne : line ≠ [])
    (hcom : pyStartsWith line ['/', '/'] = false)
    (hstart : pyStartsWith line ans = true) :
    parseSectionLineT cfg st line
      = .ok ⟨some ((splitOnList ab (pyStrip (line.drop 1))).map pyStrip), st.data⟩ := by
  have hemp : line.isEmpty = false := by
    cases line with
    | nil => exact absurd rfl hne
    | cons c cs => rfl
  unfold parseSectionLineT
  rw [hemp, hcom]
  rw [if_neg (by decide : ¬((false || false) = true))]
  rw [hans]
  simp only [if_pos hstart]
  rw [hab]
  simp only [pySplit, if_neg habne]

theorem parseSectionLineT_data (cfg : Config) (st : RawSec) (line ans dls db : PyStr)
    (hans : dictGetE cfg ansKey = .ok ans) (hdls : dictGetE cfg dlsKey = .ok dls)
    (hdb : dictGetE cfg dbKey = .ok db) (hdbne : db ≠ []) (hne : line ≠ [])
    (hcom : pyStartsWith line ['/', '/'] = false)
    (hnostart : pyStartsWith line ans = false)
    (hstart : pyStartsWith line dls = true) :
    parseSectionLineT cfg st line
      = .ok ⟨st.columns, st.data ++ [(splitOnList db (pyStrip (line.drop 1))).map pyStrip]⟩ := by
  have hemp : line.isEmpty = false := by
    cases line with
    | nil => exact absurd rfl hne
    | cons c cs => rfl
  unfold parseSectionLineT
  rw [hemp, hcom]
  rw [if_neg (by decide : ¬((false || false) = true))]
  rw [hans]
  simp only [hnostart, Bool.false_eq_true, if_false]
  rw [hdls]
  simp only [if_pos hstart]
  rw [hdb]
  simp only [pySplit, if_neg hdbne]

/-- C5 counterexample: with a two-character `AttributeNameStarter` token
`@@` the header line `@@a b` does not lose the whole token — only its first
character is stripped (`line[1:]`), so the captured column names are
`[@a, b]`, not `[a, b]`. -/
theorem c5_counterexample :
    parseSectionRaw cfgAtAt [pstr "<T>", pstr "@@a b", pstr "</T>"] 0 2
      = .ok ⟨some [pstr "@a", pstr "b"], []⟩
    ∧ ([pstr "@a", pstr "b"] : List PyStr) ≠ [pstr "a", pstr "b"] := by
  exact ⟨rfl, by decide⟩

/-- C5 (amended): for every line strictly between the markers that starts
with the configured `AttributeNameStarter` (resp. `DataLineStarter`) token,
the builder strips exactly one character — the first — regardless of the
token's length (which coincides with stripping the token for the
conventional single-character tokens), then trims, splits the remainder on
the `AttributeBreaker` (resp. `DataBreaker`) token and trims each piece;
the header line replaces any previously captured header (last header wins),
and each data line appends one raw row of string cells. -/
theorem c5_line_tokenizing :
    (∀ (cfg : Config) (st : RawSec) (rawLine ans ab : PyStr),
      dictGetE cfg ansKey = .ok ans → dictGetE cfg abKey = .ok ab → ab ≠ [] →
      pyStrip rawLine ≠ [] →
      pyStartsWith (pyStrip rawLine) ['/', '/'] = false →
      pyStartsWith (pyStrip rawLine) ans = true →
      parseSectionLine cfg st rawLine
        = .ok ⟨some ((splitOnList ab (pyStrip ((pyStrip rawLine).drop 1))).map pyStrip),
            st.data⟩)
    ∧ (∀ (cfg : Config) (st : RawSec) (rawLine ans dls db : PyStr),
      dictGetE cfg ansKey = .ok ans → dictGetE cfg dlsKey = .ok dls →
      dictGetE cfg dbKey = .ok db → db ≠ [] →
      pyStrip rawLine ≠ [] →
      pyStartsWith (pyStrip rawLine) ['/', '/'] = false →
      pyStartsWith (pyStrip rawLine) ans = false →
      pyStartsWith (pyStrip rawLine) dls = true →
      parseSectionLine cfg st rawLine
        = .ok ⟨st.columns,
            st.data ++ [(splitOnList db (pyStrip ((pyStrip rawLine).drop 1))).map pyStrip]⟩)
    ∧ parseSectionRaw cfgStd [pstr "<T>", pstr "@c1 c2", pstr "#1 2", pstr "</T>"] 0 3
        = .ok ⟨some [pstr "c1", pstr "c2"], [[pstr "1", pstr "2"]]⟩ := by
  refine ⟨?_, ?_, rfl⟩
  · intro cfg st rawLine ans ab hans hab habne hne hcom hstart
    exact parseSectionLineT_header cfg st _ ans ab hans hab habne hne hcom hstart
  · intro cfg st rawLine ans dls db hans hdls hdb hdbne hne hcom hnostart hstart
    exact parseSectionLineT_data cfg st _ ans dls db hans hdls hdb hdbne hne hcom
      hnostart hstart

/-- C5 witness: a header line and a data line under the conventional
configuration. -/
theorem c5_witness :
    (dictGetE cfgStd ansKey = .ok (pstr "@")
      ∧ parseSectionLine cfgStd ⟨some [pstr "old"], []⟩ (pstr "@x y")
          = .ok ⟨some [pstr "x", pstr "y"], []⟩)
    ∧ parseSectionLine cfgStd ⟨some [pstr "x"], []⟩ (pstr "#1 2")
        = .ok ⟨some [pstr "x"], [[pstr "1", pstr "2"]]⟩ := by
  refine ⟨⟨rfl, ?_⟩, ?_⟩
  · exact c5_line_tokenizing.1 cfgStd ⟨some [pstr "old"], []⟩ (pstr "@x y")
      (pstr "@") (pstr " ") rfl rfl (by decide) (by decide)
      (by decide) (by decide)
  · exact c5_line_tokenizing.2.1 cfgStd ⟨some [pstr "x"], []⟩ (pstr "#1 2")
      (pstr "@") (pstr "#") (pstr " ") rfl rfl rfl
      (by decide) (by decide) (by decide) (by decide) (by decide)

theorem mapOpt_cons {α β : Type} (f : α → Option β) (a : α) (rest : List α) :
    mapOpt f (a :: rest)
      = match f a, mapOpt f rest with
        | some b, some bs => some (b :: bs)
        | _, _ => none := rfl

theorem mapOpt_eq_none {α β : Type} (f : α → Option β) :
    ∀ l : List α, mapOpt f l = none ↔ ∃ a ∈ l, f a = none := by
  intro l
  induction l with
  | nil => simp [mapOpt]
  | cons a rest ih =>
    rw [mapOpt_cons]
    cases hfa : f a with
    | none =>
      constructor
      · intro _
        exact ⟨a, List.mem_cons_self a rest, hfa⟩
      · intro _
        cases mapOpt f rest <;> rfl
    | some b =>
      cases hrest : mapOpt f rest with
      | none =>
        constructor
        · intro _
          obtain ⟨x, hx, hfx⟩ := ih.mp hrest
          exact ⟨x, List.mem_cons_of_mem a hx, hfx⟩
        · intro _
          rfl
      | some bs =>
        constructor
        · intro hn
          exact Option.noConfusion hn
        · rintro ⟨x, hx, hfx⟩
          rcases List.mem_cons.mp hx with rfl | hx2
          · rw [hfx] at hfa
            exact Option.noConfusion hfa
          · have h2 := ih.mpr ⟨x, hx2, hfx⟩
            rw [h2] at hrest
            exact Option.noConfusion hrest

theorem toNumericColumn_none_iff (cj : List CellV) :
    toNumericColumn cj = none ↔ mapOpt toNumericCell cj = none := by
  unfold toNumericColumn
  cases h : mapOpt toNumericCell cj with
  | none => simp
  | some vs =>
    by_cases hall : vs.all isIntV = true
    · simp [hall]
    · simp [hall]

theorem all_isIntV_map_int : ∀ ns : List Int, (ns.map NumV.int).all isIntV = true := by
  intro ns
  induction ns with
  | nil => rfl
  | cons n rest ih => simp [isIntV, ih]

theorem filterMap_getIntV_map_int :
    ∀ ns : List Int, (ns.map NumV.int).filterMap getIntV = ns := by
  intro ns
  induction ns with
  | nil => rfl
  | cons n rest ih => simp [List.filterMap_cons, getIntV, ih]

theorem toNumericColumn_ints (cj : List CellV) (ns : List Int)
    (h : mapOpt toNumericCell cj = some (ns.map NumV.int)) :
    toNumericColumn cj = some (Col.ints ns) := by
  unfold toNumericColumn
  rw [h]
  simp [all_isIntV_map_int ns, filterMap_getIntV_map_int ns]

theorem countOcc_eq_zero_of_not_mem (x : PyStr) :
    ∀ l : List PyStr, x ∉ l → countOcc x l = 0 := by
  intro l
  induction l with
  | nil => intro _; rfl
  | cons y rest ih =>
    intro h
    have hy : ¬(y = x) := fun e => h (by rw [e] at *; exact List.mem_cons_self x rest)
    unfold countOcc
    rw [if_neg hy, ih (fun hx => h (List.mem_cons_of_mem y hx))]

theorem countOcc_le_one_of_nodup (x : PyStr) :
    ∀ l : List PyStr, l.Nodup → countOcc x l ≤ 1 := by
  intro l
  induction l with
  | nil => intro _; exact Nat.zero_le 1
  | cons y rest ih =>
    intro h
    obtain ⟨hy, hrest⟩ := List.nodup_cons.mp h
    by_cases hx : y = x
    · subst hx
      unfold countOcc
      rw [if_pos rfl, countOcc_eq_zero_of_not_mem y rest hy]
    · unfold countOcc
      rw [if_neg hx]
      simpa using ih hrest

theorem typeColumn_of_nodup (columns : List PyStr) (cells : List (List CellV))
    (j : Nat) (h : columns.Nodup) :
    typeColumn columns cells j
      = match toNumericColumn (colCells cells j) with
        | some c => c
        | none => Col.strs (colCells cells j) := by
  have hle := countOcc_le_one_of_nodup (columns.getD j []) columns h
  simp only [typeColumn]
  rw [if_neg (by omega)]

/-- C6 counterexample: with the duplicated header `a a` every cell of the
built table converts to a number, yet both columns are typed as strings
(the per-label `pd.to_numeric(df[name])` receives a DataFrame and raises,
and the bare `except` keeps the columns), so "numeric exactly when every
cell parses" fails. -/
theorem c6_counterexample :
    parseSection cfgStd [pstr "<T>", pstr "@a a", pstr "#1 2", pstr "</T>"] 0 3
      = .ok (some ⟨[pstr "a", pstr "a"],
          [Col.strs [some (pstr "1")], Col.strs [some (pstr "2")]]⟩)
    ∧ toNumericCell (some (pstr "1")) = some (NumV.int 1)
    ∧ toNumericCell (some (pstr "2")) = some (NumV.int 2) := by
  exact ⟨rfl, rfl, rfl⟩

/-- C6 (amended): provided the header names are pairwise distinct, the
typing is strictly per-column and all-or-nothing — a column is left as
strings exactly when some cell fails to convert (with all cells kept
verbatim), it is numeric otherwise, with integer representation when every
cell converts through the integer path; a column whose header name is
duplicated is always left as strings.  The documented example types `col1`
as the numbers `[1, 3]` and `col2` as the strings `["2", "x"]`. -/
theorem c6_column_typing :
    (∀ (columns : List PyStr) (cells : List (List CellV)) (j : Nat),
      columns.Nodup →
      typeColumn columns cells j
        = match toNumericColumn (colCells cells j) with
          | some c => c
          | none => Col.strs (colCells cells j))
    ∧ (∀ cj : List CellV,
        toNumericColumn cj = none ↔ ∃ c ∈ cj, toNumericCell c = none)
    ∧ (∀ (cj : List CellV) (ns : List Int),
        mapOpt toNumericCell cj = some (ns.map NumV.int) →
        toNumericColumn cj = some (Col.ints ns))
    ∧ (∀ (columns : List PyStr) (cells : List (List CellV)) (j : Nat),
        1 < countOcc (columns.getD j []) columns →
        typeColumn columns cells j = Col.strs (colCells cells j))
    ∧ parseSection cfgStd
        [pstr "<T>", pstr "@col1 col2", pstr "#1 2", pstr "#3 x", pstr "</T>"] 0 4
        = .ok (some ⟨[pstr "col1", pstr "col2"],
            [Col.ints [1, 3], Col.strs [some (pstr "2"), some (pstr "x")]]⟩) := by
  refine ⟨typeColumn_of_nodup, ?_, toNumericColumn_ints, ?_, rfl⟩
  · intro cj
    rw [toNumericColumn_none_iff]
    exact mapOpt_eq_none toNumericCell cj
  · intro columns cells j hdup
    simp only [typeColumn]
    rw [if_pos hdup]

/-- C6 witness: typing of concrete columns. -/
theorem c6_witness :
    ([pstr "c1", pstr "c2"].Nodup
      ∧ typeColumn [pstr "c1", pstr "c2"] [[some (pstr "1"), some (pstr "x")]] 0
          = Col.ints [1])
    ∧ toNumericColumn [some (pstr "x")] = none
    ∧ toNumericColumn [some (pstr "7"), some (pstr "2")] = some (Col.ints [7, 2])
    ∧ (1 < countOcc ([pstr "a", pstr "a"].getD 0 []) [pstr "a", pstr "a"]
      ∧ typeColumn [pstr "a", pstr "a"] [[some (pstr "1"), some (pstr "2")]] 0
          = Col.strs [some (pstr "1")]) := by
  refine ⟨⟨by decide, ?_⟩, ?_, ?_, ⟨by decide, ?_⟩⟩
  · rw [c6_column_typing.1 [pstr "c1", pstr "c2"]
      [[some (pstr "1"), some (pstr "x")]] 0 (by decide)]
    rfl
  · exact (c6_column_typing.2.1 [some (pstr "x")]).mpr
      ⟨some (pstr "x"), List.mem_cons_self _ _, rfl⟩
  · exact c6_column_typing.2.2.1 [some (pstr "7"), some (pstr "2")] [7, 2] rfl
  · exact c6_column_typing.2.2.2.1 [pstr "a", pstr "a"]
      [[some (pstr "1"), some (pstr "2")]] 0 (by decide)

theorem dictGet_dictInsert {α : Type} :
    ∀ (d : List (PyStr × α)) (k key : PyStr) (v : α),
      dictGet? (dictInsert d k v) key
        = if k = key then some v else dictGet? d key := by
  intro d k key v
  induction d with
  | nil => rfl
  | cons p rest ih =>
    obtain ⟨k', w⟩ := p
    by_cases h1 : k' = k
    · subst h1
      simp only [dictInsert, if_pos rfl, dictGet?]
      by_cases h2 : k' = key <;> simp [h2, dictGet?]
    · simp only [dictInsert, if_neg h1, dictGet?]
      by_cases h2 : k' = key
      · subst h2
        rw [if_pos rfl, if_neg (fun e => h1 e.symm), if_pos rfl]
      · rw [if_neg h2, if_neg h2, ih]

theorem lastTable_cons (cfg : Config) (lines : List PyStr) (name : PyStr)
    (a : Option TFrame) (s : ESection) (rest : List ESection) :
    lastTable cfg lines name a (s :: rest)
      = lastTable cfg lines name (lastTableStep cfg lines name a s) rest := rfl

theorem readSections_lookup (cfg : Config) (lines : List PyStr) (name : PyStr) :
    ∀ (secs : List ESection) (d m : List (PyStr × TFrame)),
      readSections cfg lines secs d = .ok m →
      dictGet? m name = lastTable cfg lines name (dictGet? d name) secs := by
  intro secs
  induction secs with
  | nil =>
    intro d m h
    simp only [readSections] at h
    cases h
    rfl
  | cons s rest ih =>
    intro d m h
    rw [lastTable_cons]
    cases hps : parseSection cfg lines s.start s.stop with
    | error e =>
      simp only [readSections, hps] at h
      exact Except.noConfusion h
    | ok ot =>
      cases ot with
      | none =>
        simp only [readSections, hps] at h
        have hm := ih d m h
        rw [hm]
        congr 1
        unfold lastTableStep
        rw [hps]
        by_cases hn : s.name = name <;> simp [hn]
      | some t =>
        simp only [readSections, hps] at h
        have hm := ih (dictInsert d s.name t) m h
        rw [hm]
        congr 1
        rw [dictGet_dictInsert]
        unfold lastTableStep
        rw [hps]

/-- C7: the result of a parse whose sections all build without exception is
assembled by last-write-wins insertion in file order — for every name, the
lookup in the result is the table of the last section of that name that
yields one, sections yielding nothing add no entry, and the empty content
parses to the valid empty mapping without error. -/
theorem c7_result_assembly :
    (∀ (cfg : Config) (content : PyStr) (m : List (PyStr × TFrame)) (name : PyStr),
      readFileAux cfg content = .ok m →
      dictGet? m name
        = lastTable cfg (splitOnList ['\n'] content) name none (findSections content))
    ∧ readFile cfgStd (some (pstr "<T>\n@a\n#1\n</T>\n<T>\n@a\n#2\n</T>"))
        = [(pstr "T", ⟨[pstr "a"], [Col.ints [2]]⟩)]
    ∧ readFile cfgStd (some (pstr "<U>\n</U>\n<T>\n@a\n#1\n</T>"))
        = [(pstr "T", ⟨[pstr "a"], [Col.ints [1]]⟩)]
    ∧ readFile cfgStd (some (pstr "")) = [] := by
  refine ⟨?_, rfl, rfl, rfl⟩
  intro cfg content m name h
  exact readSections_lookup cfg (splitOnList ['\n'] content) name
    (findSections content) [] m h

/-- C7 witness: a one-section file, its successful parse, and the
last-write-wins characterisation of the lookup. -/
theorem c7_witness :
    readFileAux cfgStd (pstr "<T>\n@a\n#1\n</T>")
      = .ok [(pstr "T", ⟨[pstr "a"], [Col.ints [1]]⟩)]
    ∧ dictGet? [(pstr "T", (⟨[pstr "a"], [Col.ints [1]]⟩ : TFrame))] (pstr "T")
        = lastTable cfgStd (splitOnList ['\n'] (pstr "<T>\n@a\n#1\n</T>")) (pstr "T")
            none (findSections (pstr "<T>\n@a\n#1\n</T>")) := by
  refine ⟨rfl, ?_⟩
  exact c7_result_assembly.1 cfgStd (pstr "<T>\n@a\n#1\n</T>")
    [(pstr "T", ⟨[pstr "a"], [Col.ints [1]]⟩)] (pstr "T") rfl

theorem mkDataFrame_ok (cols : List PyStr) (rows : List (List PyStr))
    (h : pyMaxWidth rows = cols.length) :
    mkDataFrame cols rows = .ok (rows.map (padRow cols.length)) := by
  unfold mkDataFrame
  rw [if_pos h]

theorem mkDataFrame_err (cols : List PyStr) (rows : List (List PyStr))
    (h : pyMaxWidth rows ≠ cols.length) :
    mkDataFrame cols rows = .error PyErr.valueError := by
  unfold mkDataFrame
  rw [if_neg h]

/-- C8 counterexample: in a section with a captured one-column header and
one data row of two cells, the table is not built — DataFrame construction
raises and the whole parse returns the empty mapping. -/
theorem c8_counterexample :
    parseSection cfgStd [pstr "<T>", pstr "@a", pstr "#1 2", pstr "</T>"] 0 3
      = .error PyErr.valueError
    ∧ readFile cfgStd (some (pstr "<T>\n@a\n#1 2\n</T>")) = [] :=
  ⟨rfl, rfl⟩

/-- C8 (amended): a data row whose cell count differs from the header
length is passed through unvalidated only when the maximum cell count over
the section's rows equals the header length; such shorter rows are padded
with missing (`None`) cells and the table is still built and returned
without error.  When the maximum row width differs from the header length,
DataFrame construction raises instead (and the catch-all turns the parse
into the empty mapping). -/
theorem c8_row_width :
    (∀ (cols : List PyStr) (rows : List (List PyStr)),
      pyMaxWidth rows = cols.length →
      mkDataFrame cols rows = .ok (rows.map (padRow cols.length)))
    ∧ (∀ (cols : List PyStr) (rows : List (List PyStr)),
        pyMaxWidth rows ≠ cols.length →
        mkDataFrame cols rows = .error PyErr.valueError)
    ∧ parseSection cfgStd
        [pstr "<T>", pstr "@a b", pstr "#1 2", pstr "#3", pstr "</T>"] 0 4
        = .ok (some ⟨[pstr "a", pstr "b"],
            [Col.ints [1, 3], Col.floats [NumV.int 2, NumV.nan]]⟩) :=
  ⟨mkDataFrame_ok, mkDataFrame_err, rfl⟩

/-- C8 witness: a full-width row builds, an over-wide row raises. -/
theorem c8_witness :
    (pyMaxWidth [[pstr "1"]] = [pstr "a"].length
      ∧ mkDataFrame [pstr "a"] [[pstr "1"]] = .ok [[some (pstr "1")]])
    ∧ (pyMaxWidth [[pstr "1", pstr "2"]] ≠ [pstr "a"].length
      ∧ mkDataFrame [pstr "a"] [[pstr "1", pstr "2"]] = .error PyErr.valueError) := by
  refine ⟨⟨by decide, ?_⟩, ⟨by decide, ?_⟩⟩
  · have h := c8_row_width.1 [pstr "a"] [[pstr "1"]] (by decide)
    simpa using h
  · exact c8_row_width.2.1 [pstr "a"] [[pstr "1", pstr "2"]] (by decide)

theorem foldlMax_le_init :
    ∀ (rows : List (List PyStr)) (a : Nat),
      a ≤ rows.foldl (fun m r => max m r.length) a := by
  intro rows
  induction rows with
  | nil => intro a; exact Nat.le_refl a
  | cons r rest ih =>
    intro a
    exact Nat.le_trans (Nat.le_max_left a r.length) (ih (max a r.length))

theorem length_le_foldlMax (r : List PyStr) :
    ∀ (rows : List (List PyStr)) (a : Nat),
      r ∈ rows → r.length ≤ rows.foldl (fun m r => max m r.length) a := by
  intro rows
  induction rows with
  | nil => intro a h; cases h
  | cons r' rest ih =>
    intro a h
    rcases List.mem_cons.mp h with rfl | h2
    · exact Nat.le_trans (Nat.le_max_right a r.length)
        (foldlMax_le_init rest (max a r.length))
    · exact ih (max a r'.length) h2

theorem mkDataFrame_long_row (cols : List PyStr) (rows : List (List PyStr))
    (r : List PyStr) (hr : r ∈ rows) (hlen : cols.length < r.length) :
    mkDataFrame cols rows = .error PyErr.valueError := by
  apply mkDataFrame_err
  have h := length_le_foldlMax r rows 0 hr
  unfold pyMaxWidth
  omega

/-- C10: parsing is not section-atomic — a data row with more cells than
its section's header has columns makes DataFrame construction raise, any
section exception makes the catch-all of `read_file` return the empty
mapping, and in the concrete two-section file the table already built from
the first section (which parses fine on its own) is discarded. -/
theorem c10_catchall_discards :
    (∀ (cfg : Config) (content : PyStr) (e : PyErr),
      readFileAux cfg content = .error e → readFile cfg (some content) = [])
    ∧ (∀ (cols : List PyStr) (rows : List (List PyStr)) (r : List PyStr),
        r ∈ rows → cols.length < r.length →
        mkDataFrame cols rows = .error PyErr.valueError)
    ∧ readFile cfgStd (some (pstr "<T>\n@a\n#1\n</T>\n<U>\n@b\n#1 2\n</U>")) = []
    ∧ readFile cfgStd (some (pstr "<T>\n@a\n#1\n</T>"))
        = [(pstr "T", ⟨[pstr "a"], [Col.ints [1]]⟩)] := by
  refine ⟨?_, ?_, rfl, rfl⟩
  · intro cfg content e h
    simp only [readFile, h]
  · intro cols rows r hr hlen
    exact mkDataFrame_long_row cols rows r hr hlen

/-- C10 witness: the concrete failing file and the over-wide row. -/
theorem c10_witness :
    readFileAux cfgStd (pstr "<T>\n@a\n#1\n</T>\n<U>\n@b\n#1 2\n</U>")
      = .error PyErr.valueError
    ∧ readFile cfgStd (some (pstr "<T>\n@a\n#1\n</T>\n<U>\n@b\n#1 2\n</U>")) = []
    ∧ ([pstr "1", pstr "2"] ∈ [[pstr "1", pstr "2"]]
      ∧ [pstr "a"].length < [pstr "1", pstr "2"].length
      ∧ mkDataFrame [pstr "a"] [[pstr "1", pstr "2"]] = .error PyErr.valueError) := by
  refine ⟨rfl, ?_, List.mem_cons_self _ _, by decide, ?_⟩
  · exact c10_catchall_discards.1 cfgStd _ PyErr.valueError rfl
  · exact c10_catchall_discards.2.1 [pstr "a"] [[pstr "1", pstr "2"]]
      [pstr "1", pstr "2"] (List.mem_cons_self _ _) (by decide)

end EFile
